import Mathlib

/-!
Verification development for the `comment_templates` module (`src/mod.ts`).

The source is TypeScript operating on JavaScript strings and regular
expressions.  We shallowly embed it over `List Char`:

* the two marker regexes (`XML_COMMENT_VARIABLE`, `SLASH_COMMENT_VARIABLE`)
  and the snippet regex (`XML_COMMENT_SNIPPET`) are embedded as deterministic
  scanners that implement the regex semantics for these fixed patterns
  (leftmost match, greedy `(?<value>.*)` with the `s` flag, back-referenced
  close-tag name, `matchAll` resuming at the end of each match);
* the hand-rolled pipe-expression tokenizer of `createPiper` is embedded with
  an explicit fuel parameter; `none` models non-termination of the source
  loop (the loop variable `index` can decrease, see `tokenizeLoop`);
* exceptions (`CommentTemplateError`, `TypeError`) are modelled with
  `Except JsError`.

Curly braces inside string literals are written with the escapes \x7b and
\x7d throughout.
-/

namespace CommentTemplates

/-- Apostrophe character, used in the `Missing variable` message. -/
def quoteChar : Char := Char.ofNat 39

/-- Backtick character, used by the `code` and `codeblock` pipes. -/
def backtick : Char := Char.ofNat 96

/-- Opening curly brace. -/
def lbrace : Char := Char.ofNat 123

/-- Closing curly brace. -/
def rbrace : Char := Char.ofNat 125

/-- JavaScript `\s` (whitespace) character class, restricted to the code
points it contains; used by the marker regexes and by `String.trim`. -/
def isJsSpace (c : Char) : Bool :=
  c = ' ' || c = '\t' || c = '\n' || c = '\r' || c = '\x0b' || c = '\x0c' ||
  c = ' ' || c = '﻿' || c = ' ' ||
  (' ' ≤ c && c ≤ ' ') || c = ' ' || c = ' ' ||
  c = ' ' || c = ' ' || c = '　'

/-- First character of a marker name: regex class `[a-z_A-Z$]`. -/
def isNameStart (c : Char) : Bool :=
  ('a' ≤ c && c ≤ 'z') || ('A' ≤ c && c ≤ 'Z') || c = '_' || c = '$'

/-- Subsequent characters of a marker name: regex class `[a-z_A-Z0-9$\.]`. -/
def isNameChar (c : Char) : Bool :=
  isNameStart c || ('0' ≤ c && c ≤ '9') || c = '.'

/-- Pipe-name characters: regex class `[a-z_A-Z0-9$]` (no dot). -/
def isIdentChar (c : Char) : Bool :=
  isNameStart c || ('0' ≤ c && c ≤ '9')

/-- Numeric-argument characters: regex class `[\.0-9_]`. -/
def isNumChar (c : Char) : Bool :=
  ('0' ≤ c && c ≤ '9') || c = '_' || c = '.'

/-- JavaScript `String.prototype.trim` over the `\s` class. -/
def jsTrim (s : List Char) : List Char :=
  ((s.dropWhile isJsSpace).reverse.dropWhile isJsSpace).reverse

/-- JavaScript `String.prototype.trimStart`. -/
def jsTrimStart (s : List Char) : List Char := s.dropWhile isJsSpace

/-- JavaScript `String.prototype.trimEnd`. -/
def jsTrimEnd (s : List Char) : List Char :=
  (s.reverse.dropWhile isJsSpace).reverse

/-- Strip a literal prefix; `some rest` on success.  Embeds matching a
sequence of literal regex characters. -/
def stripLit : List Char → List Char → Option (List Char)
  | [], s => some s
  | _ :: _, [] => none
  | p :: ps, c :: cs => if c = p then stripLit ps cs else none

/-- Decimal value of a digit list (used by the `Number(...)` model). -/
def digitsToNat (s : List Char) : Nat :=
  s.foldl (fun a c => a * 10 + (c.toNat - '0'.toNat)) 0

/-- JavaScript `Number(s)` restricted to the strings the tokenizer can pass
it: strings over the class `[\.0-9_]`.  `none` models `NaN`.  `Number("")`
is `0`; an underscore or a second dot yields `NaN`; `"."` is `NaN`.  The
value is modelled as an exact rational (the difference between this and
IEEE-754 doubles is not observable in any theorem below). -/
def jsNumber (s : List Char) : Option ℚ :=
  if s = [] then some 0
  else if s.contains '_' then none
  else
    let intPart := s.takeWhile (fun c => c ≠ '.')
    let rest := s.dropWhile (fun c => c ≠ '.')
    match rest with
    | [] => some (digitsToNat intPart)
    | _ :: frac =>
      if frac.contains '.' then none
      else if intPart = [] && frac = [] then none
      else some ((digitsToNat intPart : ℚ) + (digitsToNat frac : ℚ) / (10 ^ frac.length))

/-- Pipe-argument values: `string | number | boolean | null` as produced by
the tokenizer (`ArgToken["value"]` in the source). -/
inductive ArgValue where
  | str (s : List Char)
  | num (q : Option ℚ)
  | boolean (b : Bool)
  | null
deriving DecidableEq, Repr

/-- Tokens of the pipe-expression tokenizer (`Token` in the source). -/
inductive Token where
  | pipe (name : List Char)
  | arg (v : ArgValue)
deriving DecidableEq, Repr

/-- Errors thrown by the engine: `CommentTemplateError` messages and the
`TypeError` raised when `replace` receives a non-string argument. -/
inductive JsError where
  | template (msg : List Char)
  | typeErr (msg : List Char)
deriving DecidableEq, Repr

/-- Digits of a natural number, most significant first. -/
def natDigits (n : Nat) : List Char :=
  (Nat.toDigits 10 n)

/-- Decimal rendering of an exact rational produced by `jsNumber`; used only
by the template-literal coercion of numeric pipe arguments. -/
def renderRat (q : ℚ) : List Char :=
  let sign : List Char := if q < 0 then ['-'] else []
  let q' := |q|
  if q'.den = 1 then sign ++ natDigits q'.num.toNat
  else
    -- q'.den divides a power of 10 for every value jsNumber can produce
    let k := (List.range 40).find? (fun k => (q' * 10 ^ k).den = 1) |>.getD 40
    let scaled := (q' * 10 ^ k).num.toNat
    let ds := natDigits scaled
    let ds := List.replicate (k + 1 - ds.length) '0' ++ ds
    sign ++ ds.take (ds.length - k) ++ '.' :: ds.drop (ds.length - k)

/-- JavaScript template-literal coercion `${x}` of an argument value. -/
def argToString : ArgValue → List Char
  | .str s => s
  | .boolean true => "true".toList
  | .boolean false => "false".toList
  | .null => "null".toList
  | .num none => "NaN".toList
  | .num (some q) => renderRat q

/-- JavaScript truthiness of an argument value. -/
def argTruthy : ArgValue → Bool
  | .str s => s ≠ []
  | .boolean b => b
  | .null => false
  | .num none => false
  | .num (some q) => q ≠ 0

/-- Split a list on a separator element, JavaScript `String.split` style
(`"".split(sep) = [""]`, empty segments kept). -/
def splitOnChar (sep : Char) : List Char → List (List Char)
  | [] => [[]]
  | c :: rest =>
    match splitOnChar sep rest with
    | [] => [[]]
    | seg :: segs => if c = sep then [] :: seg :: segs else (c :: seg) :: segs

/-- JavaScript `String.prototype.replaceAll` with string arguments, empty
search inserting the replacement between every character; fuelled to keep the
definition structural (the fuel `s.length + 1` is never exhausted because a
non-empty search consumes at least one character per step). -/
def replaceAllAux (search repl : List Char) : Nat → List Char → List Char
  | 0, s => s
  | _ + 1, [] => []
  | fuel + 1, c :: rest =>
    if search.isPrefixOf (c :: rest) && search ≠ [] then
      repl ++ replaceAllAux search repl fuel ((c :: rest).drop search.length)
    else
      c :: replaceAllAux search repl fuel rest

/-- JavaScript `value.replaceAll(search, repl)`. -/
def jsReplaceAll (search repl s : List Char) : List Char :=
  if search = [] then
    repl ++ s.foldr (fun c acc => c :: (repl ++ acc)) []
  else replaceAllAux search repl (s.length + 1) s

/-- The `trim` pipe factory. -/
def trimPipe (_ : List ArgValue) : Except JsError (List Char → List Char) :=
  .ok jsTrim

/-- The `trimStart` pipe factory. -/
def trimStartPipe (_ : List ArgValue) : Except JsError (List Char → List Char) :=
  .ok jsTrimStart

/-- The `trimEnd` pipe factory. -/
def trimEndPipe (_ : List ArgValue) : Except JsError (List Char → List Char) :=
  .ok jsTrimEnd

/-- The `string` pipe factory: `singleQuotes` defaults to `false` and is
used for its truthiness. -/
def stringPipe (args : List ArgValue) : Except JsError (List Char → List Char) :=
  let singleQuotes := match args.head? with
    | none => false
    | some a => argTruthy a
  let q : Char := if singleQuotes then quoteChar else '"'
  .ok (fun v => q :: v ++ [q])

/-- The `prefix` pipe factory (`prefix` defaults to the empty string and is
coerced by a template literal). -/
def prefixPipe (args : List ArgValue) : Except JsError (List Char → List Char) :=
  let p := match args.head? with
    | none => []
    | some a => argToString a
  .ok (fun v => p ++ v)

/-- The `suffix` pipe factory. -/
def suffixPipe (args : List ArgValue) : Except JsError (List Char → List Char) :=
  let p := match args.head? with
    | none => []
    | some a => argToString a
  .ok (fun v => v ++ p)

/-- The `codeblock` pipe factory. -/
def codeblockPipe (args : List ArgValue) : Except JsError (List Char → List Char) :=
  let lang := match args.head? with
    | none => []
    | some a => argToString a
  .ok (fun v =>
    [backtick, backtick, backtick] ++ lang ++ '\n' :: v ++ '\n' ::
      [backtick, backtick, backtick])

/-- The `indent` pipe factory: prepends the argument to every line. -/
def indentPipe (args : List ArgValue) : Except JsError (List Char → List Char) :=
  let ind := match args.head? with
    | none => []
    | some a => argToString a
  .ok (fun v => List.intercalate ['\n'] ((splitOnChar '\n' v).map (fun l => ind ++ l)))

/-- The `code` pipe factory: wraps the value in backticks. -/
def codePipe (_ : List ArgValue) : Except JsError (List Char → List Char) :=
  .ok (fun v => backtick :: v ++ [backtick])

/-- The `replace` pipe factory: splits its string argument on the first comma
into search and replacement.  Calling `split` on a non-string argument raises
a `TypeError` in the source, modelled with `JsError.typeErr`. -/
def replacePipe (args : List ArgValue) : Except JsError (List Char → List Char) :=
  match args.head? with
  | none =>
    -- default value "": "".split(",") = [""], so search = "" and repl = ""
    .ok (fun v => jsReplaceAll [] [] v)
  | some (.str s) =>
    let parts := splitOnChar ',' s
    let search := (parts.head?).getD []
    let repl := (parts.drop 1).head?.getD []
    .ok (fun v => jsReplaceAll search repl v)
  | some _ => .error (.typeErr "value.split is not a function".toList)

/-- The fixed pipe registry (`pipes` in the source), in declaration order. -/
def pipesRegistry : List (List Char × (List ArgValue → Except JsError (List Char → List Char))) :=
  [("trim".toList, trimPipe),
   ("trimStart".toList, trimStartPipe),
   ("trimEnd".toList, trimEndPipe),
   ("string".toList, stringPipe),
   ("prefix".toList, prefixPipe),
   ("suffix".toList, suffixPipe),
   ("codeblock".toList, codeblockPipe),
   ("indent".toList, indentPipe),
   ("code".toList, codePipe),
   ("replace".toList, replacePipe)]

/-- The identity function for pipes (`identity` in the source). -/
def identity (value : List Char) : List Char := value

/-- Combine a list of pipes into a single piper (`combine` in the source):
the pipes are applied left to right. -/
def combine (fns : List (List Char → List Char)) (value : List Char) : List Char :=
  fns.foldl (fun v f => f v) value

/-- One `while` loop of the tokenizer inside `createPiper`, with explicit
fuel.  `none` models non-termination of the source loop.  The source indexes
the string with a mutable `index`; `String.prototype.search` and `indexOf`
return `-1` on failure, modelled here by the `none` branches of `findIdx?`.
In the numeric-argument branch, when the run of `[\.0-9_]` characters
extends to the end of the string, the source executes `index += -1`, so the
scan position decreases — that is the `i1 - 1` below. -/
def tokenizeLoop (s : List Char) : Nat → Nat → List Token → Option (List Token)
  | 0, _, _ => none
  | fuel + 1, index, acc =>
    match s.drop index with
    | [] => some acc
    | c :: _ =>
      if c = '|' then
        -- consume the run of identifier characters as a pipe name
        let remaining := s.drop (index + 1)
        match remaining.findIdx? (fun ch => ¬ isIdentChar ch) with
        | some k => tokenizeLoop s fuel (index + 1 + k) (acc ++ [.pipe (remaining.take k)])
        | none => tokenizeLoop s fuel (index + 1 - 1) (acc ++ [.pipe remaining.dropLast])
      else if c = ':' then
        let i1 := index + 1
        if (s.drop i1).take 4 = "null".toList then
          tokenizeLoop s fuel (i1 + 4) (acc ++ [.arg .null])
        else if (s.drop i1).take 4 = "true".toList then
          tokenizeLoop s fuel (i1 + 4) (acc ++ [.arg (.boolean true)])
        else if (s.drop i1).take 5 = "false".toList then
          tokenizeLoop s fuel (i1 + 5) (acc ++ [.arg (.boolean false)])
        else
          match s.drop i1 with
          | [] => some acc
          | v :: _ =>
            if v = '"' then
              let i2 := i1 + 1
              match (s.drop i2).findIdx? (fun ch => ch = '"') with
              | some k =>
                let value := (s.drop i2).take k
                tokenizeLoop s fuel (i2 + value.length + 1) (acc ++ [.arg (.str value)])
              | none =>
                let value := (s.drop i2).dropLast
                tokenizeLoop s fuel (i2 + value.length + 1) (acc ++ [.arg (.str value)])
            else if isNumChar v then
              let remaining := s.drop i1
              match remaining.findIdx? (fun ch => ¬ isNumChar ch) with
              | some k =>
                tokenizeLoop s fuel (i1 + k) (acc ++ [.arg (.num (jsNumber (remaining.take k)))])
              | none =>
                tokenizeLoop s fuel (i1 - 1) (acc ++ [.arg (.num (jsNumber remaining.dropLast))])
            else
              -- falls through to the bottom index++ of the loop
              tokenizeLoop s fuel (i1 + 1) acc
      else
        tokenizeLoop s fuel (index + 1) acc

/-- The token-consuming loop at the end of `createPiper`: accumulate
arguments, flush the pending factory on each pipe token, and reject names
that are not registry keys (`Invalid pipe name`). -/
def buildPipers : List Token → List ArgValue →
    Option (List ArgValue → Except JsError (List Char → List Char)) →
    List (List Char → List Char) → Except JsError (List (List Char → List Char))
  | [], args, fn, fns =>
    match fn with
    | some f => do
      let p ← f args
      .ok (fns ++ [p])
    | none => .ok fns
  | .arg v :: rest, args, fn, fns => buildPipers rest (args ++ [v]) fn fns
  | .pipe name :: rest, args, fn, fns => do
    let (args, fns) ←
      match fn with
      | some f => do
        let p ← f args
        pure (([] : List ArgValue), fns ++ [p])
      | none => pure (args, fns)
    match pipesRegistry.lookup name with
    | none => .error (.template ("Invalid pipe name: ".toList ++ name))
    | some f' => buildPipers rest args (some f') fns

/-- Create a pipe function from a pipe string (`createPiper` in the source).
`none` models non-termination of the tokenizer loop. -/
def createPiper (fuel : Nat) (pipeString : List Char) :
    Option (Except JsError (List Char → List Char)) :=
  if pipeString = [] then some (.ok (combine [identity]))
  else
    match tokenizeLoop pipeString fuel 0 [] with
    | none => none
    | some tokens =>
      match buildPipers tokens [] none [identity] with
      | .error e => some (.error e)
      | .ok fns => some (.ok (combine fns))

/-- A marker style: the comment delimiters of one of the two variable
regexes.  `xmlArgs` records the one syntactic difference between them: in
`XML_COMMENT_VARIABLE` the argument group after a pipe colon is starred
(zero or more argument literals), in `SLASH_COMMENT_VARIABLE` exactly one
argument literal follows each colon. -/
structure Style where
  pre : List Char
  post : List Char
  xmlArgs : Bool

/-- `XML_COMMENT_VARIABLE`: delimiters `<!--` and `-->`. -/
def xmlStyle : Style := ⟨"<!--".toList, "-->".toList, true⟩

/-- `SLASH_COMMENT_VARIABLE`: the regex source spells the comment
terminator as `\*\\`, which matches a literal `*` followed by a literal
backslash — not `*/`. -/
def slashStyle : Style := ⟨"/*".toList, ['*', '\\'], false⟩

/-- One argument literal of the pipes group:
`null|true|false|[0-9_\.]+|"[^"]*"`, returning the consumed text and the
rest. -/
def parseArgLit (s : List Char) : Option (List Char × List Char) :=
  match stripLit "null".toList s with
  | some r => some ("null".toList, r)
  | none =>
  match stripLit "true".toList s with
  | some r => some ("true".toList, r)
  | none =>
  match stripLit "false".toList s with
  | some r => some ("false".toList, r)
  | none =>
  match s with
  | [] => none
  | '"' :: rest =>
    let content := rest.takeWhile (fun c => c ≠ '"')
    match rest.dropWhile (fun c => c ≠ '"') with
    | '"' :: r => some ('"' :: content ++ ['"'], r)
    | _ => none
  | c :: _ =>
    if isNumChar c then some (s.takeWhile isNumChar, s.dropWhile isNumChar)
    else none

/-- Greedy star over argument literals (the starred group of
`XML_COMMENT_VARIABLE`).  Fuelled to stay structural; every literal consumes
at least one character, so the fuel `s.length + 1` supplied by
`parseArgsStar` is never exhausted. -/
def parseArgsStarAux : Nat → List Char → List Char × List Char
  | 0, s => ([], s)
  | fuel + 1, s =>
    match parseArgLit s with
    | none => ([], s)
    | some (a, r) =>
      let (more, r') := parseArgsStarAux fuel r
      (a ++ more, r')

/-- Greedy star over argument literals. -/
def parseArgsStar (s : List Char) : List Char × List Char :=
  parseArgsStarAux (s.length + 1) s

/-- One pipe item `\|[a-z_A-Z0-9$]+:args` of the pipes group, returning the
consumed text and the rest. -/
def parsePipeItem (st : Style) (s : List Char) : Option (List Char × List Char) :=
  match s with
  | '|' :: rest =>
    let ident := rest.takeWhile isIdentChar
    let r1 := rest.dropWhile isIdentChar
    if ident = [] then none
    else
      match r1 with
      | ':' :: r2 =>
        if st.xmlArgs then
          let (argsTxt, r3) := parseArgsStar r2
          some ('|' :: ident ++ ':' :: argsTxt, r3)
        else
          match parseArgLit r2 with
          | some (a, r3) => some ('|' :: ident ++ ':' :: a, r3)
          | none => none
      | _ => none
  | _ => none

/-- Greedy star over pipe items (the `pipes` capture group).  Fuelled to
stay structural; every item consumes at least one character. -/
def parsePipesAux (st : Style) : Nat → List Char → List Char × List Char
  | 0, s => ([], s)
  | fuel + 1, s =>
    match parsePipeItem st s with
    | none => ([], s)
    | some (it, r) =>
      let (more, r') := parsePipesAux st fuel r
      (it ++ more, r')

/-- The `pipes` capture group of a marker open tag. -/
def parsePipes (st : Style) (s : List Char) : List Char × List Char :=
  parsePipesAux st (s.length + 1) s

/-- The `open` capture group of a marker:
`pre \s* ={ name pipes } \s* post`; returns the open-tag text, the `name`
and `pipes` captures, and the rest of the input. -/
def parseOpen (st : Style) (s : List Char) :
    Option (List Char × List Char × List Char × List Char) :=
  match stripLit st.pre s with
  | none => none
  | some s1 =>
    let ws1 := s1.takeWhile isJsSpace
    let s2 := s1.dropWhile isJsSpace
    match stripLit ['=', lbrace] s2 with
    | none => none
    | some s3 =>
      match s3 with
      | [] => none
      | c :: _ =>
        if isNameStart c then
          let nm := s3.takeWhile isNameChar
          let s4 := s3.dropWhile isNameChar
          let (pt, s5) := parsePipes st s4
          match stripLit [rbrace] s5 with
          | none => none
          | some s6 =>
            let ws2 := s6.takeWhile isJsSpace
            let s7 := s6.dropWhile isJsSpace
            match stripLit st.post s7 with
            | none => none
            | some s8 =>
              some (st.pre ++ ws1 ++ '=' :: lbrace :: nm ++ pt ++ rbrace :: ws2 ++ st.post,
                    nm, pt, s8)
        else none

/-- The `close` capture group: `pre \s* {/ name } \s* post` with the
back-referenced name; returns the close-tag text and the rest. -/
def parseClose (st : Style) (name : List Char) (s : List Char) :
    Option (List Char × List Char) :=
  match stripLit st.pre s with
  | none => none
  | some s1 =>
    let ws1 := s1.takeWhile isJsSpace
    let s2 := s1.dropWhile isJsSpace
    match stripLit (lbrace :: '/' :: name ++ [rbrace]) s2 with
    | none => none
    | some s3 =>
      let ws2 := s3.takeWhile isJsSpace
      let s4 := s3.dropWhile isJsSpace
      match stripLit st.post s4 with
      | none => none
      | some s5 =>
        some (st.pre ++ ws1 ++ lbrace :: '/' :: name ++ rbrace :: ws2 ++ st.post, s5)

/-- Offset and text of the last close tag in `s`, if any.  The value group
`(?<value>.*)` is greedy under the `s` flag, so the regex pairs an open tag
with the *last* close tag carrying the same name. -/
def lastClose (st : Style) (name : List Char) : List Char → Option (Nat × List Char)
  | [] => none
  | c :: rest =>
    match lastClose st name rest with
    | some (j, ct) => some (j + 1, ct)
    | none =>
      match parseClose st name (c :: rest) with
      | some (ct, _) => some (0, ct)
      | none => none

/-- One match of a marker regex: the capture groups plus the match index. -/
structure MarkerMatch where
  start : Nat
  openText : List Char
  name : List Char
  pipes : List Char
  value : List Char
  closeText : List Char
deriving DecidableEq, Repr

/-- Attempt a match starting exactly at the head of `s` (match index 0). -/
def matchAt (st : Style) (s : List Char) : Option MarkerMatch :=
  match parseOpen st s with
  | none => none
  | some (ot, nm, pt, rest) =>
    match lastClose st nm rest with
    | none => none
    | some (j, ct) => some ⟨0, ot, nm, pt, rest.take j, ct⟩

/-- All matches of a style in document order (`content.matchAll(pattern)`):
scan left to right, and resume after the end of each match.  Fuelled to stay
structural; each step consumes at least one character, so the fuel
`s.length + 1` supplied by `findMatches` is never exhausted.  A match is
never empty (its open tag is non-empty), so `(c :: rest).drop len` is
written `rest.drop (len - 1)`. -/
def findMatchesAux (st : Style) : Nat → List Char → Nat → List MarkerMatch
  | 0, _, _ => []
  | _ + 1, [], _ => []
  | fuel + 1, c :: rest, i =>
    match matchAt st (c :: rest) with
    | some m =>
      let len := m.openText.length + m.value.length + m.closeText.length
      ⟨i, m.openText, m.name, m.pipes, m.value, m.closeText⟩ ::
        findMatchesAux st fuel (rest.drop (len - 1)) (i + len)
    | none => findMatchesAux st fuel rest (i + 1)

/-- All matches of a style in document order. -/
def findMatches (st : Style) (s : List Char) : List MarkerMatch :=
  findMatchesAux st (s.length + 1) s 0

/-- A variable entry: a literal string or a function of the current wrapped
value (`CommentTemplateVariables` in the source). -/
inductive VarValue where
  | str (s : List Char)
  | func (f : Option (List Char) → List Char)

/-- The details record passed to the `exclude` predicate.  The source field
`end` is a Lean keyword and is embedded as `endIdx`. -/
structure ExcludeDetails where
  value : List Char
  start : Nat
  endIdx : Nat
  name : List Char
  replaceStart : Nat
  replaceEnd : Nat
  fullMatch : List Char

/-- The message of the `Missing variable` error. -/
def missingVariableMessage (name : List Char) : List Char :=
  "Missing variable: ".toList ++ quoteChar :: name ++ [quoteChar]

/-- The inner loop of `commentTemplate` over the reversed match list of one
pattern.  `t` is the current document.  The pipe chain is constructed for
every match before the group guard, the exclusion check and the variable
lookup; `none` propagates tokenizer non-termination and `.error` propagates
thrown errors. -/
def processMatches (fuel : Nat) (vars : List (List Char × VarValue))
    (throwIfMissingVariable : Bool) (exclude : Option (ExcludeDetails → Bool)) :
    List MarkerMatch → List Char → Option (Except JsError (List Char))
  | [], t => some (.ok t)
  | m :: rest, t =>
    match createPiper fuel m.pipes with
    | none => none
    | some (.error e) => some (.error e)
    | some (.ok fn) =>
      let full := m.openText ++ m.value ++ m.closeText
      -- `if (!name || !open || !close || typeof start !== "number" || !length)`;
      -- `start` is always a number for a real match
      if m.name = [] ∨ m.openText = [] ∨ m.closeText = [] ∨ full = [] then
        processMatches fuel vars throwIfMissingVariable exclude rest t
      else
        let endIdx := m.start + full.length
        let replaceStart := m.start + m.openText.length
        let replaceEnd := endIdx - m.closeText.length
        let varEntry := vars.lookup m.name
        let replacementValue :=
          match varEntry with
          | some (.str s) => fn s
          | some (.func f) => fn (f (some m.value))
          | none => []
        let details : ExcludeDetails :=
          ⟨replacementValue, m.start, endIdx, m.name, replaceStart, replaceEnd, full⟩
        if (match exclude with | some p => p details | none => false) then
          processMatches fuel vars throwIfMissingVariable exclude rest t
        else
          match varEntry with
          | none =>
            if throwIfMissingVariable then
              some (.error (.template (missingVariableMessage m.name)))
            else
              processMatches fuel vars throwIfMissingVariable exclude rest t
          | some _ =>
            processMatches fuel vars throwIfMissingVariable exclude rest
              (t.take replaceStart ++ replacementValue ++ t.drop replaceEnd)

/-- The outer loop of `commentTemplate` over the requested patterns: the
matches of each pattern are collected from the current document and applied
in reverse document order before the next pattern is scanned. -/
def runPatterns (fuel : Nat) (vars : List (List Char × VarValue))
    (throwIfMissingVariable : Bool) (exclude : Option (ExcludeDetails → Bool)) :
    List Style → List Char → Option (Except JsError (List Char))
  | [], t => some (.ok t)
  | st :: ps, t =>
    match processMatches fuel vars throwIfMissingVariable exclude
        (findMatches st t).reverse t with
    | some (.ok t2) => runPatterns fuel vars throwIfMissingVariable exclude ps t2
    | r => r

/-- The props of `commentTemplate`, with the source defaults
(`throwIfMissingVariable = false`, `patterns = ["slash", "xml"]`,
no `exclude`). -/
structure CommentTemplateProps where
  content : List Char
  -- the source field is named `variables`, a reserved keyword in Lean
  vars : List (List Char × VarValue)
  throwIfMissingVariable : Bool := false
  patterns : List Style := [slashStyle, xmlStyle]
  exclude : Option (ExcludeDetails → Bool) := none

/-- `commentTemplate`, fuelled through `createPiper`; `none` models
non-termination and `.error` a thrown `CommentTemplateError`. -/
def commentTemplate (fuel : Nat) (props : CommentTemplateProps) :
    Option (Except JsError (List Char)) :=
  runPatterns fuel props.vars props.throwIfMissingVariable props.exclude
    props.patterns props.content

/-- The open tag of `XML_COMMENT_SNIPPET`: `<!-- \s* @{ name } \s* -->`
(no pipes group); returns the open text, name and rest. -/
def parseSnippetOpen (s : List Char) : Option (List Char × List Char × List Char) :=
  match stripLit "<!--".toList s with
  | none => none
  | some s1 =>
    let ws1 := s1.takeWhile isJsSpace
    let s2 := s1.dropWhile isJsSpace
    match stripLit ['@', lbrace] s2 with
    | none => none
    | some s3 =>
      match s3 with
      | [] => none
      | c :: _ =>
        if isNameStart c then
          let nm := s3.takeWhile isNameChar
          let s4 := s3.dropWhile isNameChar
          match stripLit [rbrace] s4 with
          | none => none
          | some s5 =>
            let ws2 := s5.takeWhile isJsSpace
            let s6 := s5.dropWhile isJsSpace
            match stripLit "-->".toList s6 with
            | none => none
            | some s7 =>
              some ("<!--".toList ++ ws1 ++ '@' :: lbrace :: nm ++ rbrace :: ws2 ++ "-->".toList,
                    nm, s7)
        else none

/-- A snippet match: the close tag of `XML_COMMENT_SNIPPET` is identical to
the close tag of `XML_COMMENT_VARIABLE`, so `lastClose xmlStyle` is reused
(the value group is greedy in the same way). -/
def snippetMatchAt (s : List Char) : Option MarkerMatch :=
  match parseSnippetOpen s with
  | none => none
  | some (ot, nm, rest) =>
    match lastClose xmlStyle nm rest with
    | none => none
    | some (j, ct) => some ⟨0, ot, nm, [], rest.take j, ct⟩

/-- All snippet matches in document order, as in `findMatchesAux`. -/
def snippetMatchesAux : Nat → List Char → Nat → List MarkerMatch
  | 0, _, _ => []
  | _ + 1, [], _ => []
  | fuel + 1, c :: rest, i =>
    match snippetMatchAt (c :: rest) with
    | some m =>
      let len := m.openText.length + m.value.length + m.closeText.length
      ⟨i, m.openText, m.name, m.pipes, m.value, m.closeText⟩ ::
        snippetMatchesAux fuel (rest.drop (len - 1)) (i + len)
    | none => snippetMatchesAux fuel rest (i + 1)

/-- All snippet matches in document order. -/
def snippetMatches (s : List Char) : List MarkerMatch :=
  snippetMatchesAux (s.length + 1) s 0

/-- `extractTemplateValues`: the list of `[name, value.trim()]` items pushed
by the source loop.  A match with an empty `value` capture is skipped by the
`!value` guard; the source wraps the items in a `Map`, whose lookup
semantics (last entry wins) is `extractLookup` below. -/
def extractTemplateValues (content : List Char) : List (List Char × List Char) :=
  (snippetMatches content).foldl
    (fun items m =>
      if m.name = [] ∨ m.openText = [] ∨ m.closeText = [] ∨
          (m.openText ++ m.value ++ m.closeText) = [] ∨ m.value = [] then items
      else items ++ [(m.name, jsTrim m.value)])
    []

/-- Lookup in the `Map` returned by `extractTemplateValues`: for duplicate
names the last inserted value wins. -/
def extractLookup (content : List Char) (name : List Char) : Option (List Char) :=
  ((extractTemplateValues content).reverse.find? (fun it => it.1 = name)).map (·.2)

/-! ### Concrete marker tags used by the universal theorems -/

/-- Tail (after the leading `<`) of the open tag `<!-- =\x7bn\x7d -->`. -/
def xmlOpenTailN : List Char := "!-- =\x7bn\x7d -->".toList

/-- Tail of the close tag `<!-- \x7b/n\x7d -->`. -/
def xmlCloseTailN : List Char := "!-- \x7b/n\x7d -->".toList

/-- Tail of the open tag `<!-- =\x7bv|foo:\x7d -->` carrying the unknown pipe
name `foo` (with the colon required by the pipes grammar). -/
def xmlOpenTailFoo : List Char := "!-- =\x7bv|foo:\x7d -->".toList

/-- Tail of the close tag `<!-- \x7b/v\x7d -->`. -/
def xmlCloseTailV : List Char := "!-- \x7b/v\x7d -->".toList

/-- Tail of the snippet open tag `<!-- @\x7bx\x7d -->`. -/
def snipOpenTailX : List Char := "!-- @\x7bx\x7d -->".toList

/-- Tail of the close tag `<!-- \x7b/x\x7d -->`. -/
def xmlCloseTailX : List Char := "!-- \x7b/x\x7d -->".toList

/-- The pipe expression `|foo:` (unknown pipe name). -/
def pipeFoo : List Char := "|foo:".toList

/-- The pipe expression `|indent:2`, whose trailing numeric argument makes
the tokenizer loop forever. -/
def pipeIndent2 : List Char := "|indent:2".toList

/-- The details record the `exclude` predicate receives for the marker
`<!-- =\x7bn\x7d -->v<!-- \x7b/n\x7d -->` at offset `pre.length` when the
variable is missing (the replacement value is empty). -/
def detailsMissingN (pre v : List Char) : ExcludeDetails :=
  ⟨[], pre.length,
    pre.length + (('<' :: xmlOpenTailN) ++ v ++ ('<' :: xmlCloseTailN)).length,
    ['n'],
    pre.length + ('<' :: xmlOpenTailN).length,
    pre.length + (('<' :: xmlOpenTailN) ++ v ++ ('<' :: xmlCloseTailN)).length -
      ('<' :: xmlCloseTailN).length,
    ('<' :: xmlOpenTailN) ++ v ++ ('<' :: xmlCloseTailN)⟩

/-! ### Helper lemmas about list splicing -/

theorem take_len_append {α : Type} : ∀ (a b : List α) (n : Nat),
    (a ++ b).take (a.length + n) = a ++ b.take n
  | [], _, _ => by simp
  | c :: a, b, n => by
    simpa [List.length_cons, Nat.succ_add] using take_len_append a b n

theorem drop_len_append {α : Type} : ∀ (a b : List α) (n : Nat),
    (a ++ b).drop (a.length + n) = b.drop n
  | [], _, _ => by simp
  | c :: a, b, n => by
    simpa [List.length_cons, Nat.succ_add] using drop_len_append a b n

/-! ### The single-marker match lemmas

The universal theorems below are stated over documents of the shape
`pre ++ openTag ++ v ++ closeTag ++ post` in which `pre`, `v` and `post`
contain no `<` character, so that the only close tag the greedy value group
can end at is the concrete one. -/

theorem parseOpen_head_ne (c : Char) (h : ¬ c = '<') (s : List Char) :
    parseOpen xmlStyle (c :: s) = none := by
  simp [parseOpen, xmlStyle, stripLit, h]

theorem matchAt_head_ne (c : Char) (h : ¬ c = '<') (s : List Char) :
    matchAt xmlStyle (c :: s) = none := by
  simp [matchAt, parseOpen_head_ne c h s]

theorem parseClose_head_ne (nm : List Char) (c : Char) (h : ¬ c = '<') (s : List Char) :
    parseClose xmlStyle nm (c :: s) = none := by
  simp [parseClose, xmlStyle, stripLit, h]

theorem lastClose_none (nm u : List Char) (h : ∀ c ∈ u, ¬ c = '<') :
    lastClose xmlStyle nm u = none := by
  induction u with
  | nil => rfl
  | cons c rest ih =>
    have hc : ¬ c = '<' := h c (by simp)
    have hrest := ih (fun c hc => h c (by simp [hc]))
    simp [lastClose, hrest, parseClose_head_ne nm c hc]

theorem lastClose_append_of_some (st : Style) (nm : List Char) (u t : List Char)
    (j : Nat) (ct : List Char) (h : lastClose st nm t = some (j, ct)) :
    lastClose st nm (u ++ t) = some (u.length + j, ct) := by
  induction u with
  | nil => simpa using h
  | cons c rest ih =>
    have hlen : (c :: rest).length + j = (rest.length + j) + 1 := by
      simp [List.length_cons]; omega
    rw [List.cons_append, hlen]
    simp [lastClose, ih]

theorem lastClose_at_close (nm ct₀ post : List Char)
    (hclose : ∀ p, parseClose xmlStyle nm ('<' :: (ct₀ ++ p)) = some ('<' :: ct₀, p))
    (hct : ∀ c ∈ ct₀, ¬ c = '<') (hpost : ∀ c ∈ post, ¬ c = '<') :
    lastClose xmlStyle nm (('<' :: ct₀) ++ post) = some (0, '<' :: ct₀) := by
  have hnone : lastClose xmlStyle nm (ct₀ ++ post) = none := by
    refine lastClose_none nm _ (fun c hc => ?_)
    rcases List.mem_append.mp hc with h | h
    · exact hct c h
    · exact hpost c h
  rw [List.cons_append]
  simp only [lastClose, List.append_eq, hnone]
  rw [hclose post]

theorem matchAt_family (ot₀ nm pt ct₀ v post : List Char)
    (hopen : ∀ r, parseOpen xmlStyle ('<' :: (ot₀ ++ r)) = some ('<' :: ot₀, nm, pt, r))
    (hclose : ∀ p, parseClose xmlStyle nm ('<' :: (ct₀ ++ p)) = some ('<' :: ct₀, p))
    (hct : ∀ c ∈ ct₀, ¬ c = '<') (hpost : ∀ c ∈ post, ¬ c = '<') :
    matchAt xmlStyle ('<' :: (ot₀ ++ (v ++ (('<' :: ct₀) ++ post)))) =
      some ⟨0, '<' :: ot₀, nm, pt, v, '<' :: ct₀⟩ := by
  have h1 : lastClose xmlStyle nm (('<' :: ct₀) ++ post) = some (0, '<' :: ct₀) :=
    lastClose_at_close nm ct₀ post hclose hct hpost
  have h2 : lastClose xmlStyle nm (v ++ (('<' :: ct₀) ++ post)) =
      some (v.length + 0, '<' :: ct₀) :=
    lastClose_append_of_some xmlStyle nm v _ 0 _ h1
  have h3 : (v ++ (('<' :: ct₀) ++ post)).take v.length = v := List.take_left v _
  simp only [matchAt, hopen (v ++ (('<' :: ct₀) ++ post)), h2, Nat.add_zero, h3]

theorem findMatchesAux_skip (u : List Char) (hu : ∀ c ∈ u, ¬ c = '<') :
    ∀ (f : Nat) (t : List Char) (i : Nat),
    findMatchesAux xmlStyle (u.length + f) (u ++ t) i = findMatchesAux xmlStyle f t (i + u.length) := by
  induction u with
  | nil => intro f t i; simp
  | cons c rest ih =>
    intro f t i
    have hc : ¬ c = '<' := hu c (by simp)
    have h1 : (c :: rest).length + f = (rest.length + f) + 1 := by
      simp [List.length_cons]; omega
    rw [h1]
    simp only [List.cons_append, findMatchesAux, matchAt_head_ne c hc, List.append_eq]
    rw [ih (fun c hc => hu c (by simp [hc])) f t (i + 1)]
    congr 1
    simp [List.length_cons]; omega

theorem findMatchesAux_nil_input (u : List Char) (hu : ∀ c ∈ u, ¬ c = '<') :
    ∀ (f : Nat) (i : Nat), findMatchesAux xmlStyle f u i = [] := by
  induction u with
  | nil => intro f i; cases f <;> rfl
  | cons c rest ih =>
    intro f i
    cases f with
    | zero => rfl
    | succ f =>
      have hc : ¬ c = '<' := hu c (by simp)
      simp only [findMatchesAux, matchAt_head_ne c hc]
      exact ih (fun c hc => hu c (by simp [hc])) f (i + 1)

theorem findMatchesAux_single_step (f : Nat) (tl : List Char)
    (ot cl v post : List Char) (nm pt : List Char) (i : Nat)
    (hm : matchAt xmlStyle ('<' :: tl) = some ⟨0, ot, nm, pt, v, cl⟩)
    (hdrop : tl.drop (ot.length + v.length + cl.length - 1) = post)
    (hpost : ∀ c ∈ post, ¬ c = '<') :
    findMatchesAux xmlStyle (f + 1) ('<' :: tl) i = [⟨i, ot, nm, pt, v, cl⟩] := by
  simp only [findMatchesAux, hm]
  rw [hdrop, findMatchesAux_nil_input post hpost]

theorem findMatches_single (pre ot₀ nm pt ct₀ v post : List Char)
    (hopen : ∀ r, parseOpen xmlStyle ('<' :: (ot₀ ++ r)) = some ('<' :: ot₀, nm, pt, r))
    (hclose : ∀ p, parseClose xmlStyle nm ('<' :: (ct₀ ++ p)) = some ('<' :: ct₀, p))
    (hct : ∀ c ∈ ct₀, ¬ c = '<') (hpre : ∀ c ∈ pre, ¬ c = '<')
    (hpost : ∀ c ∈ post, ¬ c = '<') :
    findMatches xmlStyle (pre ++ ('<' :: ot₀) ++ v ++ ('<' :: ct₀) ++ post) =
      [⟨pre.length, '<' :: ot₀, nm, pt, v, '<' :: ct₀⟩] := by
  have hmatch : matchAt xmlStyle ('<' :: (ot₀ ++ (v ++ (('<' :: ct₀) ++ post)))) =
      some ⟨0, '<' :: ot₀, nm, pt, v, '<' :: ct₀⟩ :=
    matchAt_family ot₀ nm pt ct₀ v post hopen hclose hct hpost
  have hdoc : pre ++ ('<' :: ot₀) ++ v ++ ('<' :: ct₀) ++ post =
      pre ++ ('<' :: (ot₀ ++ (v ++ (('<' :: ct₀) ++ post)))) := by
    simp [List.append_assoc]
  unfold findMatches
  rw [hdoc]
  have hfuel : (pre ++ ('<' :: (ot₀ ++ (v ++ (('<' :: ct₀) ++ post))))).length + 1 =
      pre.length + (((ot₀ ++ (v ++ (('<' :: ct₀) ++ post)))).length + 1 + 1) := by
    simp [List.length_append, List.length_cons]; omega
  rw [hfuel, findMatchesAux_skip pre hpre _ _ 0]
  have hdrop : (ot₀ ++ (v ++ (('<' :: ct₀) ++ post))).drop
      (('<' :: ot₀).length + v.length + ('<' :: ct₀).length - 1) = post := by
    rw [show ('<' :: ot₀).length + v.length + ('<' :: ct₀).length - 1 =
        ot₀.length + (v.length + (('<' :: ct₀).length + 0)) by
      simp [List.length_cons]; omega]
    rw [drop_len_append ot₀ _ _, drop_len_append v _ _,
      drop_len_append ('<' :: ct₀) post 0]
    simp
  rw [findMatchesAux_single_step _ _ _ _ _ _ _ _ _ hmatch hdrop hpost]
  simp

/-! ### Splicing and concrete-tag lemmas -/

theorem splice_family (pre a v b post w : List Char) :
    (pre ++ a ++ v ++ b ++ post).take (pre.length + a.length) ++ w ++
      (pre ++ a ++ v ++ b ++ post).drop (pre.length + (a ++ v ++ b).length - b.length) =
    pre ++ a ++ w ++ b ++ post := by
  have h1 : pre ++ a ++ v ++ b ++ post = (pre ++ a) ++ (v ++ (b ++ post)) := by
    simp [List.append_assoc]
  have h2 : pre.length + a.length = (pre ++ a).length := by simp
  have htake : (pre ++ a ++ v ++ b ++ post).take (pre.length + a.length) = pre ++ a := by
    rw [h1, h2, List.take_left]
  have hidx : pre.length + (a ++ v ++ b).length - b.length = (pre ++ a).length + (v.length + 0) := by
    simp [List.length_append]; omega
  have hdrop : (pre ++ a ++ v ++ b ++ post).drop
      (pre.length + (a ++ v ++ b).length - b.length) = b ++ post := by
    rw [h1, hidx, drop_len_append, drop_len_append]
    simp
  rw [htake, hdrop]
  simp [List.append_assoc]

theorem parseOpen_n : ∀ r, parseOpen xmlStyle ('<' :: (xmlOpenTailN ++ r)) =
    some ('<' :: xmlOpenTailN, ['n'], [], r) := fun _ => rfl

theorem parseClose_n : ∀ p, parseClose xmlStyle ['n'] ('<' :: (xmlCloseTailN ++ p)) =
    some ('<' :: xmlCloseTailN, p) := fun _ => rfl

theorem closeTailN_ne : ∀ c ∈ xmlCloseTailN, ¬ c = '<' := by decide

theorem parseOpen_foo : ∀ r, parseOpen xmlStyle ('<' :: (xmlOpenTailFoo ++ r)) =
    some ('<' :: xmlOpenTailFoo, ['v'], pipeFoo, r) := fun _ => rfl

theorem parseClose_v : ∀ p, parseClose xmlStyle ['v'] ('<' :: (xmlCloseTailV ++ p)) =
    some ('<' :: xmlCloseTailV, p) := fun _ => rfl

theorem closeTailV_ne : ∀ c ∈ xmlCloseTailV, ¬ c = '<' := by decide

/-- The single match of the plain `n` marker in a `<`-free context. -/
theorem findMatches_n (pre v post : List Char) (hpre : ∀ c ∈ pre, ¬ c = '<')
    (hpost : ∀ c ∈ post, ¬ c = '<') :
    findMatches xmlStyle (pre ++ ('<' :: xmlOpenTailN) ++ v ++ ('<' :: xmlCloseTailN) ++ post) =
      [⟨pre.length, '<' :: xmlOpenTailN, ['n'], [], v, '<' :: xmlCloseTailN⟩] :=
  findMatches_single pre _ _ _ _ v post parseOpen_n parseClose_n closeTailN_ne hpre hpost

/-- The single match of the `v|foo:` marker in a `<`-free context. -/
theorem findMatches_foo (pre v post : List Char) (hpre : ∀ c ∈ pre, ¬ c = '<')
    (hpost : ∀ c ∈ post, ¬ c = '<') :
    findMatches xmlStyle (pre ++ ('<' :: xmlOpenTailFoo) ++ v ++ ('<' :: xmlCloseTailV) ++ post) =
      [⟨pre.length, '<' :: xmlOpenTailFoo, ['v'], pipeFoo, v, '<' :: xmlCloseTailV⟩] :=
  findMatches_single pre _ _ _ _ v post parseOpen_foo parseClose_v closeTailV_ne hpre hpost

/-- Workhorse: substituting the single plain-string `n` marker of a document
`pre ++ open ++ v ++ close ++ post` whose context contains no `<`. -/
theorem commentTemplate_subst_n (pre v post w : List Char)
    (vars : List (List Char × VarValue)) (thr : Bool) (fuel : Nat)
    (hpre : ∀ c ∈ pre, ¬ c = '<') (hpost : ∀ c ∈ post, ¬ c = '<')
    (hlook : vars.lookup ['n'] = some (.str w)) :
    commentTemplate fuel
      { content := pre ++ ('<' :: xmlOpenTailN) ++ v ++ ('<' :: xmlCloseTailN) ++ post,
        vars := vars, throwIfMissingVariable := thr, patterns := [xmlStyle] } =
      some (.ok (pre ++ ('<' :: xmlOpenTailN) ++ w ++ ('<' :: xmlCloseTailN) ++ post)) := by
  have hfm := findMatches_n pre v post hpre hpost
  have hpm : processMatches fuel vars thr none
      [⟨pre.length, '<' :: xmlOpenTailN, ['n'], [], v, '<' :: xmlCloseTailN⟩]
      (pre ++ ('<' :: xmlOpenTailN) ++ v ++ ('<' :: xmlCloseTailN) ++ post) =
      some (.ok (pre ++ ('<' :: xmlOpenTailN) ++ w ++ ('<' :: xmlCloseTailN) ++ post)) := by
    simp only [processMatches, createPiper, if_pos, hlook, combine, identity, List.foldl]
    rw [if_neg (by simp), if_neg (by simp)]
    rw [splice_family pre ('<' :: xmlOpenTailN) v ('<' :: xmlCloseTailN) post w]
  unfold commentTemplate
  simp only [runPatterns, hfm, List.reverse_cons, List.reverse_nil, List.nil_append, hpm]

/-- Stepping lemma: a pattern pass that succeeds hands its output to the
remaining passes. -/
theorem runPatterns_cons_ok (fuel : Nat) (vars : List (List Char × VarValue))
    (thr : Bool) (ex : Option (ExcludeDetails → Bool)) (st : Style) (ps : List Style)
    (t t2 : List Char)
    (h : processMatches fuel vars thr ex (findMatches st t).reverse t = some (.ok t2)) :
    runPatterns fuel vars thr ex (st :: ps) t = runPatterns fuel vars thr ex ps t2 := by
  simp only [runPatterns, h]

/-- Stepping lemma: a diverging pattern pass makes the whole run diverge. -/
theorem runPatterns_cons_none (fuel : Nat) (vars : List (List Char × VarValue))
    (thr : Bool) (ex : Option (ExcludeDetails → Bool)) (st : Style) (ps : List Style)
    (t : List Char)
    (h : processMatches fuel vars thr ex (findMatches st t).reverse t = none) :
    runPatterns fuel vars thr ex (st :: ps) t = none := by
  simp only [runPatterns, h]

/-- Stepping lemma: an error in a pattern pass aborts the whole run. -/
theorem runPatterns_cons_error (fuel : Nat) (vars : List (List Char × VarValue))
    (thr : Bool) (ex : Option (ExcludeDetails → Bool)) (st : Style) (ps : List Style)
    (t : List Char) (e : JsError)
    (h : processMatches fuel vars thr ex (findMatches st t).reverse t = some (.error e)) :
    runPatterns fuel vars thr ex (st :: ps) t = some (.error e) := by
  simp only [runPatterns, h]

/-- A match whose pipe chain diverges makes the whole pass diverge. -/
theorem processMatches_none_of_piper_none (fuel : Nat)
    (vars : List (List Char × VarValue)) (thr : Bool)
    (ex : Option (ExcludeDetails → Bool)) (m : MarkerMatch) (rest : List MarkerMatch)
    (t : List Char) (h : createPiper fuel m.pipes = none) :
    processMatches fuel vars thr ex (m :: rest) t = none := by
  simp only [processMatches, h]

/-! ### Claim theorems -/

/-- C7: for a matched pair whose variable is a plain string and whose marker
has no pipes, the wrapped value in the output equals that string exactly, and
every byte outside `[replaceStart, replaceEnd)` — the prefix before
`replaceStart` and the suffix from `replaceEnd` on, including the open and
close tags — is identical to the corresponding bytes of the input. -/
theorem plain_string_marker_substitution (pre v post w : List Char)
    (vars : List (List Char × VarValue)) (thr : Bool) (fuel : Nat)
    (hpre : ∀ c ∈ pre, ¬ c = '<') (hpost : ∀ c ∈ post, ¬ c = '<')
    (hlook : vars.lookup ['n'] = some (.str w)) :
    commentTemplate fuel
      { content := pre ++ ('<' :: xmlOpenTailN) ++ v ++ ('<' :: xmlCloseTailN) ++ post,
        vars := vars, throwIfMissingVariable := thr, patterns := [xmlStyle] } =
      some (.ok (pre ++ ('<' :: xmlOpenTailN) ++ w ++ ('<' :: xmlCloseTailN) ++ post)) ∧
    pre ++ ('<' :: xmlOpenTailN) ++ w ++ ('<' :: xmlCloseTailN) ++ post =
      (pre ++ ('<' :: xmlOpenTailN) ++ v ++ ('<' :: xmlCloseTailN) ++ post).take
          (pre.length + ('<' :: xmlOpenTailN).length) ++ w ++
        (pre ++ ('<' :: xmlOpenTailN) ++ v ++ ('<' :: xmlCloseTailN) ++ post).drop
          (pre.length + ('<' :: xmlOpenTailN).length + v.length) := by
  refine ⟨commentTemplate_subst_n pre v post w vars thr fuel hpre hpost hlook, ?_⟩
  have h := splice_family pre ('<' :: xmlOpenTailN) v ('<' :: xmlCloseTailN) post w
  rw [show pre.length + (('<' :: xmlOpenTailN) ++ v ++ ('<' :: xmlCloseTailN)).length -
      ('<' :: xmlCloseTailN).length = pre.length + ('<' :: xmlOpenTailN).length + v.length from by
    simp [List.length_append]; omega] at h
  exact h.symm

theorem plain_string_marker_substitution_witness :
    commentTemplate 7
      { content := "# ".toList ++ ('<' :: xmlOpenTailN) ++ "old".toList ++
          ('<' :: xmlCloseTailN) ++ "!".toList,
        vars := [(['n'], .str "Header".toList)], throwIfMissingVariable := false,
        patterns := [xmlStyle] } =
      some (.ok ("# ".toList ++ ('<' :: xmlOpenTailN) ++ "Header".toList ++
        ('<' :: xmlCloseTailN) ++ "!".toList)) :=
  (plain_string_marker_substitution "# ".toList "old".toList "!".toList "Header".toList
    [(['n'], .str "Header".toList)] false 7 (by decide) (by decide) rfl).1

/-- C9 (amended): re-running substitution on the output with the same
variables is the identity when the relevant variable is a plain string (the
new literal value is replaced with itself); the original claim fails for
function-valued variables, see the counterexample. -/
theorem substitution_idempotent_for_string_values (pre v post w : List Char)
    (vars : List (List Char × VarValue)) (thr : Bool) (fuel : Nat)
    (hpre : ∀ c ∈ pre, ¬ c = '<') (hpost : ∀ c ∈ post, ¬ c = '<')
    (hlook : vars.lookup ['n'] = some (.str w)) :
    commentTemplate fuel
      { content := pre ++ ('<' :: xmlOpenTailN) ++ v ++ ('<' :: xmlCloseTailN) ++ post,
        vars := vars, throwIfMissingVariable := thr, patterns := [xmlStyle] } =
      some (.ok (pre ++ ('<' :: xmlOpenTailN) ++ w ++ ('<' :: xmlCloseTailN) ++ post)) ∧
    commentTemplate fuel
      { content := pre ++ ('<' :: xmlOpenTailN) ++ w ++ ('<' :: xmlCloseTailN) ++ post,
        vars := vars, throwIfMissingVariable := thr, patterns := [xmlStyle] } =
      some (.ok (pre ++ ('<' :: xmlOpenTailN) ++ w ++ ('<' :: xmlCloseTailN) ++ post)) :=
  ⟨commentTemplate_subst_n pre v post w vars thr fuel hpre hpost hlook,
   commentTemplate_subst_n pre w post w vars thr fuel hpre hpost hlook⟩

theorem substitution_idempotent_for_string_values_witness :
    commentTemplate 7
      { content := ([] : List Char) ++ ('<' :: xmlOpenTailN) ++ "old".toList ++
          ('<' :: xmlCloseTailN) ++ [],
        vars := [(['n'], .str "new".toList)], throwIfMissingVariable := false,
        patterns := [xmlStyle] } =
      some (.ok (([] : List Char) ++ ('<' :: xmlOpenTailN) ++ "new".toList ++
        ('<' :: xmlCloseTailN) ++ [])) :=
  (substitution_idempotent_for_string_values [] "old".toList [] "new".toList
    [(['n'], .str "new".toList)] false 7 (by decide) (by decide) rfl).1

/-- C9 (counterexample): with a function-valued variable and no pipes, a
second run changes the output again, so idempotence as claimed for every
variables map fails.  The function appends an exclamation mark to the
current wrapped value. -/
theorem idempotence_fails_for_function_variables :
    commentTemplate 9
      { content := "<!-- =\x7bn\x7d -->v<!-- \x7b/n\x7d -->".toList,
        vars := [(['n'], .func (fun cur => cur.getD [] ++ ['!']))] } =
      some (.ok "<!-- =\x7bn\x7d -->v!<!-- \x7b/n\x7d -->".toList) ∧
    commentTemplate 9
      { content := "<!-- =\x7bn\x7d -->v!<!-- \x7b/n\x7d -->".toList,
        vars := [(['n'], .func (fun cur => cur.getD [] ++ ['!']))] } =
      some (.ok "<!-- =\x7bn\x7d -->v!!<!-- \x7b/n\x7d -->".toList) ∧
    "<!-- =\x7bn\x7d -->v!<!-- \x7b/n\x7d -->".toList ≠
      "<!-- =\x7bn\x7d -->v!!<!-- \x7b/n\x7d -->".toList :=
  ⟨rfl, rfl, by decide⟩

/-- C2 (amended): the value group is greedy, so with two close tags bearing
the same name the matched pair ends at the *last* subsequent close tag, and
substitution replaces everything from the open tag to that last close tag. -/
theorem xml_marker_matching_is_greedy (A B w : List Char)
    (vars : List (List Char × VarValue)) (thr : Bool) (fuel : Nat)
    (hlook : vars.lookup ['n'] = some (.str w)) :
    commentTemplate fuel
      { content := ('<' :: xmlOpenTailN) ++ A ++ ('<' :: xmlCloseTailN) ++ B ++
          ('<' :: xmlCloseTailN),
        vars := vars, throwIfMissingVariable := thr, patterns := [xmlStyle] } =
      some (.ok (('<' :: xmlOpenTailN) ++ w ++ ('<' :: xmlCloseTailN))) := by
  have h := commentTemplate_subst_n [] (A ++ ('<' :: xmlCloseTailN) ++ B) [] w vars thr fuel
    (by simp) (by simp) hlook
  rw [show ([] : List Char) ++ ('<' :: xmlOpenTailN) ++
      (A ++ ('<' :: xmlCloseTailN) ++ B) ++ ('<' :: xmlCloseTailN) ++ [] =
      ('<' :: xmlOpenTailN) ++ A ++ ('<' :: xmlCloseTailN) ++ B ++ ('<' :: xmlCloseTailN) from by
    simp [List.append_assoc]] at h
  rw [show ([] : List Char) ++ ('<' :: xmlOpenTailN) ++ w ++ ('<' :: xmlCloseTailN) ++ [] =
      ('<' :: xmlOpenTailN) ++ w ++ ('<' :: xmlCloseTailN) from by
    simp [List.append_assoc]] at h
  exact h

theorem xml_marker_matching_is_greedy_witness :
    commentTemplate 7
      { content := ('<' :: xmlOpenTailN) ++ "A".toList ++ ('<' :: xmlCloseTailN) ++
          "B".toList ++ ('<' :: xmlCloseTailN),
        vars := [(['n'], .str "X".toList)], throwIfMissingVariable := false,
        patterns := [xmlStyle] } =
      some (.ok (('<' :: xmlOpenTailN) ++ "X".toList ++ ('<' :: xmlCloseTailN))) :=
  xml_marker_matching_is_greedy "A".toList "B".toList "X".toList
    [(['n'], .str "X".toList)] false 7 rfl

/-- C2 (counterexample): the claim predicts that substitution stops at the
*first* close tag, leaving `B<!-- \x7b/n\x7d -->` behind; the code replaces
up to the last close tag instead. -/
theorem xml_marker_nongreedy_counterexample :
    commentTemplate 9
      { content := "<!-- =\x7bn\x7d -->A<!-- \x7b/n\x7d -->B<!-- \x7b/n\x7d -->".toList,
        vars := [(['n'], .str ['X'])] } =
      some (.ok "<!-- =\x7bn\x7d -->X<!-- \x7b/n\x7d -->".toList) ∧
    "<!-- =\x7bn\x7d -->X<!-- \x7b/n\x7d -->".toList ≠
      "<!-- =\x7bn\x7d -->X<!-- \x7b/n\x7d -->B<!-- \x7b/n\x7d -->".toList :=
  ⟨rfl, by decide⟩

/-- C6: for a matched marker whose name has no entry in the variables map:
if the exclude predicate — invoked with an empty replacement value — returns
true, the marker is skipped (even under `throwIfMissingVariable`); otherwise,
if `throwIfMissingVariable` is true, the call fails with the
`Missing variable` error naming the variable; otherwise the region is left
byte-for-byte unchanged. -/
theorem missing_variable_policy (pre v post : List Char)
    (vars : List (List Char × VarValue)) (p : ExcludeDetails → Bool) (fuel : Nat)
    (hpre : ∀ c ∈ pre, ¬ c = '<') (hpost : ∀ c ∈ post, ¬ c = '<')
    (hlook : vars.lookup ['n'] = none) :
    (∀ thr, p (detailsMissingN pre v) = true →
      commentTemplate fuel
        { content := pre ++ ('<' :: xmlOpenTailN) ++ v ++ ('<' :: xmlCloseTailN) ++ post,
          vars := vars, throwIfMissingVariable := thr, patterns := [xmlStyle],
          exclude := some p } =
        some (.ok (pre ++ ('<' :: xmlOpenTailN) ++ v ++ ('<' :: xmlCloseTailN) ++ post))) ∧
    (p (detailsMissingN pre v) = false →
      commentTemplate fuel
        { content := pre ++ ('<' :: xmlOpenTailN) ++ v ++ ('<' :: xmlCloseTailN) ++ post,
          vars := vars, throwIfMissingVariable := true, patterns := [xmlStyle],
          exclude := some p } =
        some (.error (.template (missingVariableMessage ['n'])))) ∧
    (p (detailsMissingN pre v) = false →
      commentTemplate fuel
        { content := pre ++ ('<' :: xmlOpenTailN) ++ v ++ ('<' :: xmlCloseTailN) ++ post,
          vars := vars, throwIfMissingVariable := false, patterns := [xmlStyle],
          exclude := some p } =
        some (.ok (pre ++ ('<' :: xmlOpenTailN) ++ v ++ ('<' :: xmlCloseTailN) ++ post))) := by
  have hfm := findMatches_n pre v post hpre hpost
  refine ⟨fun thr hp => ?_, fun hp => ?_, fun hp => ?_⟩
  all_goals simp only [detailsMissingN] at hp
  · have hpm : processMatches fuel vars thr (some p)
        [⟨pre.length, '<' :: xmlOpenTailN, ['n'], [], v, '<' :: xmlCloseTailN⟩]
        (pre ++ ('<' :: xmlOpenTailN) ++ v ++ ('<' :: xmlCloseTailN) ++ post) =
        some (.ok (pre ++ ('<' :: xmlOpenTailN) ++ v ++ ('<' :: xmlCloseTailN) ++ post)) := by
      simp only [processMatches, createPiper, if_pos, hlook]
      rw [if_neg (by simp)]
      simp only [hp]
      simp
    unfold commentTemplate
    simp only [runPatterns, hfm, List.reverse_cons, List.reverse_nil, List.nil_append, hpm]
  · have hpm : processMatches fuel vars true (some p)
        [⟨pre.length, '<' :: xmlOpenTailN, ['n'], [], v, '<' :: xmlCloseTailN⟩]
        (pre ++ ('<' :: xmlOpenTailN) ++ v ++ ('<' :: xmlCloseTailN) ++ post) =
        some (.error (.template (missingVariableMessage ['n']))) := by
      simp only [processMatches, createPiper, if_pos, hlook]
      rw [if_neg (by simp)]
      simp only [hp]
      simp
    unfold commentTemplate
    simp only [runPatterns, hfm, List.reverse_cons, List.reverse_nil, List.nil_append, hpm]
  · have hpm : processMatches fuel vars false (some p)
        [⟨pre.length, '<' :: xmlOpenTailN, ['n'], [], v, '<' :: xmlCloseTailN⟩]
        (pre ++ ('<' :: xmlOpenTailN) ++ v ++ ('<' :: xmlCloseTailN) ++ post) =
        some (.ok (pre ++ ('<' :: xmlOpenTailN) ++ v ++ ('<' :: xmlCloseTailN) ++ post)) := by
      simp only [processMatches, createPiper, if_pos, hlook]
      rw [if_neg (by simp)]
      simp only [hp]
      simp
    unfold commentTemplate
    simp only [runPatterns, hfm, List.reverse_cons, List.reverse_nil, List.nil_append, hpm]

theorem missing_variable_policy_witness :
    (commentTemplate 7
      { content := ([] : List Char) ++ ('<' :: xmlOpenTailN) ++ "keep".toList ++
          ('<' :: xmlCloseTailN) ++ [],
        vars := [], throwIfMissingVariable := true, patterns := [xmlStyle],
        exclude := some (fun _ => true) } =
      some (.ok (([] : List Char) ++ ('<' :: xmlOpenTailN) ++ "keep".toList ++
        ('<' :: xmlCloseTailN) ++ []))) ∧
    (commentTemplate 7
      { content := ([] : List Char) ++ ('<' :: xmlOpenTailN) ++ "keep".toList ++
          ('<' :: xmlCloseTailN) ++ [],
        vars := [], throwIfMissingVariable := true, patterns := [xmlStyle],
        exclude := some (fun _ => false) } =
      some (.error (.template (missingVariableMessage ['n'])))) ∧
    (commentTemplate 7
      { content := ([] : List Char) ++ ('<' :: xmlOpenTailN) ++ "keep".toList ++
          ('<' :: xmlCloseTailN) ++ [],
        vars := [], throwIfMissingVariable := false, patterns := [xmlStyle],
        exclude := some (fun _ => false) } =
      some (.ok (([] : List Char) ++ ('<' :: xmlOpenTailN) ++ "keep".toList ++
        ('<' :: xmlCloseTailN) ++ []))) :=
  ⟨(missing_variable_policy [] "keep".toList [] [] (fun _ => true) 7
      (by decide) (by decide) rfl).1 true rfl,
   (missing_variable_policy [] "keep".toList [] [] (fun _ => false) 7
      (by decide) (by decide) rfl).2.1 rfl,
   (missing_variable_policy [] "keep".toList [] [] (fun _ => false) 7
      (by decide) (by decide) rfl).2.2 rfl⟩

theorem createPiper_foo : ∀ k, createPiper (k + 2) pipeFoo =
    some (.error (.template "Invalid pipe name: foo".toList)) := fun _ => rfl

theorem tokenizeLoop_indent2_loops :
    ∀ (f : Nat) (acc : List Token), tokenizeLoop pipeIndent2 f 7 acc = none := by
  intro f
  induction f with
  | zero => intro acc; rfl
  | succ f ih =>
    intro acc
    rw [show tokenizeLoop pipeIndent2 (f + 1) 7 acc =
        tokenizeLoop pipeIndent2 f 7 (acc ++ [.arg (.num (some 0))]) from rfl]
    exact ih _

theorem createPiper_indent2_none : ∀ f, createPiper f pipeIndent2 = none := by
  intro f
  cases f with
  | zero => rfl
  | succ f =>
    unfold createPiper
    rw [if_neg (by decide)]
    rw [show tokenizeLoop pipeIndent2 (f + 1) 0 [] =
        tokenizeLoop pipeIndent2 f 7 [.pipe "indent".toList] from rfl]
    rw [tokenizeLoop_indent2_loops f _]

/-- C3 (refuted): the tokenizer does not always advance: on the pipe
expression `|indent:2`, whose numeric argument extends to the end of the
string, `search` returns `-1` and `index += -1` moves the scan position
back, so the loop never terminates (`none` for every fuel), and
`commentTemplate` diverges on the document carrying that marker. -/
theorem tokenizer_diverges_on_trailing_numeric_argument :
    ∀ fuel, createPiper fuel pipeIndent2 = none ∧
      commentTemplate fuel
        { content := "<!-- =\x7bv|indent:2\x7d -->x<!-- \x7b/v\x7d -->".toList,
          vars := [(['v'], .str ['X'])] } = none := by
  intro fuel
  refine ⟨createPiper_indent2_none fuel, ?_⟩
  show runPatterns fuel [(['v'], .str ['X'])] false none [slashStyle, xmlStyle]
    "<!-- =\x7bv|indent:2\x7d -->x<!-- \x7b/v\x7d -->".toList = none
  rw [runPatterns_cons_ok fuel [(['v'], VarValue.str ['X'])] false none slashStyle [xmlStyle]
    "<!-- =\x7bv|indent:2\x7d -->x<!-- \x7b/v\x7d -->".toList
    "<!-- =\x7bv|indent:2\x7d -->x<!-- \x7b/v\x7d -->".toList rfl]
  refine runPatterns_cons_none fuel _ false none xmlStyle [] _ ?_
  show processMatches fuel [(['v'], .str ['X'])] false none
    [⟨0, "<!-- =\x7bv|indent:2\x7d -->".toList, ['v'], pipeIndent2, ['x'],
      "<!-- \x7b/v\x7d -->".toList⟩]
    "<!-- =\x7bv|indent:2\x7d -->x<!-- \x7b/v\x7d -->".toList = none
  exact processMatches_none_of_piper_none fuel _ false none _ [] _
    (createPiper_indent2_none fuel)

/-- C1 (refuted): the slash pattern spells its comment terminator as `\*\\`
(a literal `*` followed by a literal backslash), so `/* ={name} */ … */`
markers are left unchanged, while markers terminated by `*\` are matched and
substituted. -/
theorem slash_comment_requires_star_backslash :
    (∀ fuel, commentTemplate fuel
      { content := "/* =\x7bname\x7d */Placeholder/* \x7b/name\x7d */".toList,
        vars := [("name".toList, .str ['X'])] } =
      some (.ok "/* =\x7bname\x7d */Placeholder/* \x7b/name\x7d */".toList)) ∧
    (∀ fuel, commentTemplate fuel
      { content := "/* =\x7bname\x7d *\\Placeholder/* \x7b/name\x7d *\\".toList,
        vars := [("name".toList, .str ['X'])] } =
      some (.ok "/* =\x7bname\x7d *\\X/* \x7b/name\x7d *\\".toList)) :=
  ⟨fun _ => rfl, fun _ => rfl⟩

/-- C8: the composed transform applies its pipe functions left to right and
is the identity when no pipe tokens were parsed: `|prefix:"A"|suffix:"B"`
turns `X` into `AXB`, and the order-sensitive chain `|prefix:"A"|code:`
turns `X` into `` `AX` `` (the backticks wrap the prefixed value). -/
theorem pipe_composition_left_to_right :
    (∀ fuel, createPiper fuel [] = some (.ok (combine [identity]))) ∧
    (∀ s, combine [identity] s = s) ∧
    commentTemplate 1000
      { content := "<!-- =\x7bv|prefix:\"A\"|suffix:\"B\"\x7d -->x<!-- \x7b/v\x7d -->".toList,
        vars := [(['v'], .str ['X'])] } =
      some (.ok "<!-- =\x7bv|prefix:\"A\"|suffix:\"B\"\x7d -->AXB<!-- \x7b/v\x7d -->".toList) ∧
    commentTemplate 1000
      { content := "<!-- =\x7bv|prefix:\"A\"|code:\x7d -->x<!-- \x7b/v\x7d -->".toList,
        vars := [(['v'], .str ['X'])] } =
      some (.ok "<!-- =\x7bv|prefix:\"A\"|code:\x7d -->`AX`<!-- \x7b/v\x7d -->".toList) :=
  ⟨fun _ => rfl, fun _ => rfl, rfl, rfl⟩

/-- C5 (counterexample): the marker `<!-- =\x7bv|foo\x7d -->` — the pipe
name without a colon, as in the claim example `={v|foo}` — does not match
the marker grammar at all, so the call returns the document unchanged and no
`InvalidPipeName` error is raised. -/
theorem unknown_pipe_without_colon_not_matched :
    commentTemplate 1000
      { content := "<!-- =\x7bv|foo\x7d --><!-- \x7b/v\x7d -->".toList,
        vars := [(['v'], .str ['x'])] } =
      some (.ok "<!-- =\x7bv|foo\x7d --><!-- \x7b/v\x7d -->".toList) :=
  rfl

/-- C5 (amended): a marker whose pipe expression matches the grammar (the
pipe name must be followed by a colon, e.g. `|foo:`) and references a pipe
name outside the registry makes the whole call fail with
`Invalid pipe name`, even when the variable is present. -/
theorem unknown_pipe_with_colon_raises (pre v post w : List Char)
    (vars : List (List Char × VarValue)) (thr : Bool) (fuel : Nat)
    (hpre : ∀ c ∈ pre, ¬ c = '<') (hpost : ∀ c ∈ post, ¬ c = '<')
    (hlook : vars.lookup ['v'] = some (.str w)) (hfuel : 2 ≤ fuel) :
    commentTemplate fuel
      { content := pre ++ ('<' :: xmlOpenTailFoo) ++ v ++ ('<' :: xmlCloseTailV) ++ post,
        vars := vars, throwIfMissingVariable := thr, patterns := [xmlStyle] } =
      some (.error (.template "Invalid pipe name: foo".toList)) := by
  obtain ⟨k, rfl⟩ : ∃ k, fuel = k + 2 := ⟨fuel - 2, by omega⟩
  have hfm := findMatches_foo pre v post hpre hpost
  have hpm : processMatches (k + 2) vars thr none
      [⟨pre.length, '<' :: xmlOpenTailFoo, ['v'], pipeFoo, v, '<' :: xmlCloseTailV⟩]
      (pre ++ ('<' :: xmlOpenTailFoo) ++ v ++ ('<' :: xmlCloseTailV) ++ post) =
      some (.error (.template "Invalid pipe name: foo".toList)) := by
    simp only [processMatches, createPiper_foo k]
  unfold commentTemplate
  simp only [runPatterns, hfm, List.reverse_cons, List.reverse_nil, List.nil_append, hpm]

theorem unknown_pipe_with_colon_raises_witness :
    commentTemplate 2
      { content := ([] : List Char) ++ ('<' :: xmlOpenTailFoo) ++ "x".toList ++
          ('<' :: xmlCloseTailV) ++ [],
        vars := [(['v'], .str "x".toList)], throwIfMissingVariable := false,
        patterns := [xmlStyle] } =
      some (.error (.template "Invalid pipe name: foo".toList)) :=
  unknown_pipe_with_colon_raises [] "x".toList [] "x".toList
    [(['v'], .str "x".toList)] false 2 (by decide) (by decide) rfl (by omega)

/-- C10: the pipe chain is constructed for each match before the group
guard, the exclusion check and the variable lookup, so an unknown pipe name
throws `Invalid pipe name` even when the variable is absent from the map and
the exclude predicate would return true for the match. -/
theorem invalid_pipe_precedes_exclusion_and_lookup (pre v post : List Char)
    (vars : List (List Char × VarValue)) (p : ExcludeDetails → Bool)
    (thr : Bool) (fuel : Nat)
    (hpre : ∀ c ∈ pre, ¬ c = '<') (hpost : ∀ c ∈ post, ¬ c = '<')
    (hmiss : vars.lookup ['v'] = none) (hfuel : 2 ≤ fuel) :
    commentTemplate fuel
      { content := pre ++ ('<' :: xmlOpenTailFoo) ++ v ++ ('<' :: xmlCloseTailV) ++ post,
        vars := vars, throwIfMissingVariable := thr, patterns := [xmlStyle],
        exclude := some p } =
      some (.error (.template "Invalid pipe name: foo".toList)) := by
  obtain ⟨k, rfl⟩ : ∃ k, fuel = k + 2 := ⟨fuel - 2, by omega⟩
  have hfm := findMatches_foo pre v post hpre hpost
  have hpm : processMatches (k + 2) vars thr (some p)
      [⟨pre.length, '<' :: xmlOpenTailFoo, ['v'], pipeFoo, v, '<' :: xmlCloseTailV⟩]
      (pre ++ ('<' :: xmlOpenTailFoo) ++ v ++ ('<' :: xmlCloseTailV) ++ post) =
      some (.error (.template "Invalid pipe name: foo".toList)) := by
    simp only [processMatches, createPiper_foo k]
  unfold commentTemplate
  simp only [runPatterns, hfm, List.reverse_cons, List.reverse_nil, List.nil_append, hpm]

theorem invalid_pipe_precedes_exclusion_and_lookup_witness :
    commentTemplate 2
      { content := ([] : List Char) ++ ('<' :: xmlOpenTailFoo) ++ "x".toList ++
          ('<' :: xmlCloseTailV) ++ [],
        vars := [], throwIfMissingVariable := true, patterns := [xmlStyle],
        exclude := some (fun _ => true) } =
      some (.error (.template "Invalid pipe name: foo".toList)) :=
  invalid_pipe_precedes_exclusion_and_lookup [] "x".toList [] []
    (fun _ => true) true 2 (by decide) (by decide) rfl (by omega)

theorem parseSnippetOpen_head_ne (c : Char) (h : ¬ c = '<') (s : List Char) :
    parseSnippetOpen (c :: s) = none := by
  simp [parseSnippetOpen, stripLit, h]

theorem snippetMatchAt_head_ne (c : Char) (h : ¬ c = '<') (s : List Char) :
    snippetMatchAt (c :: s) = none := by
  simp [snippetMatchAt, parseSnippetOpen_head_ne c h s]

theorem parseSnippetOpen_x : ∀ r, parseSnippetOpen ('<' :: (snipOpenTailX ++ r)) =
    some ('<' :: snipOpenTailX, ['x'], r) := fun _ => rfl

theorem parseClose_x : ∀ p, parseClose xmlStyle ['x'] ('<' :: (xmlCloseTailX ++ p)) =
    some ('<' :: xmlCloseTailX, p) := fun _ => rfl

theorem closeTailX_ne : ∀ c ∈ xmlCloseTailX, ¬ c = '<' := by decide

theorem snippetMatchAt_x (v post : List Char) (hpost : ∀ c ∈ post, ¬ c = '<') :
    snippetMatchAt ('<' :: (snipOpenTailX ++ (v ++ (('<' :: xmlCloseTailX) ++ post)))) =
      some ⟨0, '<' :: snipOpenTailX, ['x'], [], v, '<' :: xmlCloseTailX⟩ := by
  have h1 : lastClose xmlStyle ['x'] (('<' :: xmlCloseTailX) ++ post) =
      some (0, '<' :: xmlCloseTailX) :=
    lastClose_at_close ['x'] xmlCloseTailX post parseClose_x closeTailX_ne hpost
  have h2 : lastClose xmlStyle ['x'] (v ++ (('<' :: xmlCloseTailX) ++ post)) =
      some (v.length + 0, '<' :: xmlCloseTailX) :=
    lastClose_append_of_some xmlStyle ['x'] v _ 0 _ h1
  have h3 : (v ++ (('<' :: xmlCloseTailX) ++ post)).take v.length = v := List.take_left v _
  simp only [snippetMatchAt, parseSnippetOpen_x (v ++ (('<' :: xmlCloseTailX) ++ post)),
    h2, Nat.add_zero, h3]

theorem snippetMatchesAux_skip (u : List Char) (hu : ∀ c ∈ u, ¬ c = '<') :
    ∀ (f : Nat) (t : List Char) (i : Nat),
    snippetMatchesAux (u.length + f) (u ++ t) i = snippetMatchesAux f t (i + u.length) := by
  induction u with
  | nil => intro f t i; simp
  | cons c rest ih =>
    intro f t i
    have hc : ¬ c = '<' := hu c (by simp)
    have h1 : (c :: rest).length + f = (rest.length + f) + 1 := by
      simp [List.length_cons]; omega
    rw [h1]
    simp only [List.cons_append, snippetMatchesAux, snippetMatchAt_head_ne c hc, List.append_eq]
    rw [ih (fun c hc => hu c (by simp [hc])) f t (i + 1)]
    congr 1
    simp [List.length_cons]; omega

theorem snippetMatchesAux_nil_input (u : List Char) (hu : ∀ c ∈ u, ¬ c = '<') :
    ∀ (f : Nat) (i : Nat), snippetMatchesAux f u i = [] := by
  induction u with
  | nil => intro f i; cases f <;> rfl
  | cons c rest ih =>
    intro f i
    cases f with
    | zero => rfl
    | succ f =>
      have hc : ¬ c = '<' := hu c (by simp)
      simp only [snippetMatchesAux, snippetMatchAt_head_ne c hc]
      exact ih (fun c hc => hu c (by simp [hc])) f (i + 1)

theorem snippetMatchesAux_single_step (f : Nat) (tl : List Char)
    (ot cl v post : List Char) (nm pt : List Char) (i : Nat)
    (hm : snippetMatchAt ('<' :: tl) = some ⟨0, ot, nm, pt, v, cl⟩)
    (hdrop : tl.drop (ot.length + v.length + cl.length - 1) = post)
    (hpost : ∀ c ∈ post, ¬ c = '<') :
    snippetMatchesAux (f + 1) ('<' :: tl) i = [⟨i, ot, nm, pt, v, cl⟩] := by
  simp only [snippetMatchesAux, hm]
  rw [hdrop, snippetMatchesAux_nil_input post hpost]

theorem snippetMatches_single (pre v post : List Char)
    (hpre : ∀ c ∈ pre, ¬ c = '<') (hpost : ∀ c ∈ post, ¬ c = '<') :
    snippetMatches (pre ++ ('<' :: snipOpenTailX) ++ v ++ ('<' :: xmlCloseTailX) ++ post) =
      [⟨pre.length, '<' :: snipOpenTailX, ['x'], [], v, '<' :: xmlCloseTailX⟩] := by
  have hmatch : snippetMatchAt ('<' :: (snipOpenTailX ++ (v ++ (('<' :: xmlCloseTailX) ++ post)))) =
      some ⟨0, '<' :: snipOpenTailX, ['x'], [], v, '<' :: xmlCloseTailX⟩ :=
    snippetMatchAt_x v post hpost
  have hdoc : pre ++ ('<' :: snipOpenTailX) ++ v ++ ('<' :: xmlCloseTailX) ++ post =
      pre ++ ('<' :: (snipOpenTailX ++ (v ++ (('<' :: xmlCloseTailX) ++ post)))) := by
    simp [List.append_assoc]
  unfold snippetMatches
  rw [hdoc]
  have hfuel : (pre ++ ('<' :: (snipOpenTailX ++ (v ++ (('<' :: xmlCloseTailX) ++ post))))).length + 1 =
      pre.length + (((snipOpenTailX ++ (v ++ (('<' :: xmlCloseTailX) ++ post)))).length + 1 + 1) := by
    simp [List.length_append, List.length_cons]; omega
  rw [hfuel, snippetMatchesAux_skip pre hpre _ _ 0]
  have hdrop : (snipOpenTailX ++ (v ++ (('<' :: xmlCloseTailX) ++ post))).drop
      (('<' :: snipOpenTailX).length + v.length + ('<' :: xmlCloseTailX).length - 1) = post := by
    rw [show ('<' :: snipOpenTailX).length + v.length + ('<' :: xmlCloseTailX).length - 1 =
        snipOpenTailX.length + (v.length + (('<' :: xmlCloseTailX).length + 0)) by
      simp [List.length_cons]; omega]
    rw [drop_len_append snipOpenTailX _ _, drop_len_append v _ _,
      drop_len_append ('<' :: xmlCloseTailX) post 0]
    simp
  rw [snippetMatchesAux_single_step _ _ _ _ _ _ _ _ _ hmatch hdrop hpost]
  simp

/-- C4 (amended): `extractTemplateValues` records the trimmed wrapped value
of a snippet under its name whenever the wrapped value is non-empty; only
the *empty* wrapped value is skipped.  A whitespace-only wrapped value is
not skipped — it is recorded with the empty string as its (trimmed) value,
see the counterexample. -/
theorem extract_single_snippet (pre v post : List Char)
    (hpre : ∀ c ∈ pre, ¬ c = '<') (hpost : ∀ c ∈ post, ¬ c = '<') :
    extractTemplateValues (pre ++ ('<' :: snipOpenTailX) ++ v ++ ('<' :: xmlCloseTailX) ++ post) =
      if v = [] then [] else [(['x'], jsTrim v)] := by
  have hfm := snippetMatches_single pre v post hpre hpost
  unfold extractTemplateValues
  rw [hfm]
  by_cases hv : v = []
  · subst hv; simp
  · simp [hv]

theorem extract_single_snippet_witness :
    extractTemplateValues (([] : List Char) ++ ('<' :: snipOpenTailX) ++ " hi ".toList ++
        ('<' :: xmlCloseTailX) ++ []) = [(['x'], "hi".toList)] := by
  have h := extract_single_snippet [] " hi ".toList [] (by decide) (by decide)
  rw [if_neg (by decide)] at h
  rw [h]
  rfl

/-- C4 (counterexample): a snippet whose wrapped value is a single space is
*not* skipped: the `!value` guard only rejects the empty string, so the
match is recorded under `x` with the empty (trimmed) value, contradicting
the claim that whitespace-only values create no entry. -/
theorem extract_whitespace_only_value_recorded :
    extractTemplateValues "<!-- @\x7bx\x7d --> <!-- \x7b/x\x7d -->".toList = [(['x'], [])] ∧
    extractTemplateValues "<!-- @\x7bx\x7d --> <!-- \x7b/x\x7d -->".toList ≠ [] :=
  ⟨rfl, by decide⟩

end CommentTemplates